import Mathlib

/-!
Shallow embedding of the tlog crate (src/lib.rs): a debug-logging macro that
appends a timestamped, pid-prefixed line to a file whose path is taken from
the TMP_LOG_FILE environment variable (default /tmp/t.log).

The macro's runtime behavior is embedded as a pure state-transition function
over an explicit World (environment lookup result, file system contents,
injected I/O failure outcomes, clock readings, process id).
-/

namespace Tlog

/-- Month enumeration of the time crate; the source renders a month with
`self.odt.month() as u8`, whose discriminants run from January = 1 to
December = 12. -/
inductive Month where
  | january | february | march | april | may | june
  | july | august | september | october | november | december
deriving DecidableEq, Repr

/-- Numeric value of a month as produced by the Rust cast `as u8` on the
time crate's Month enum: January = 1, ..., December = 12. -/
def Month.toU8 : Month → Nat
  | .january => 1
  | .february => 2
  | .march => 3
  | .april => 4
  | .may => 5
  | .june => 6
  | .july => 7
  | .august => 8
  | .september => 9
  | .october => 10
  | .november => 11
  | .december => 12

/-- Field view of time::OffsetDateTime as used by the source: the accessors
year(), month(), day(), hour(), minute(), second(), millisecond(). -/
structure OffsetDateTime where
  year : Int
  month : Month
  day : Nat
  hour : Nat
  minute : Nat
  second : Nat
  millisecond : Nat
deriving DecidableEq, Repr

/-- The source's DateTime struct: a wrapper holding one OffsetDateTime. -/
structure DateTime where
  odt : OffsetDateTime
deriving DecidableEq, Repr

/-- Error from determining the local timezone (time crate IndeterminateOffset);
the source never inspects it. -/
inductive TzError where
  | indeterminate
deriving DecidableEq, Repr

/-- Embedding of DateTime::now(): match on the result of
OffsetDateTime::now_local(); on Ok take that value, on Err fall back to
OffsetDateTime::now_utc().  The two clock readings are explicit inputs. -/
def DateTime.now (localRes : Except TzError OffsetDateTime)
    (utc : OffsetDateTime) : DateTime :=
  match localRes with
  | .ok dt => { odt := dt }
  | .error _ => { odt := utc }

/-- Prepend k zero characters to a string, the way Rust's zero-fill formatting
emits fill characters one at a time before the digits. -/
def padZeros : Nat → String → String
  | 0, s => s
  | k + 1, s => padZeros k ("0" ++ s)

/-- Rust {:0w} formatting of an unsigned integer: decimal digits, zero-filled
on the left up to minimum width w. -/
def rustPadNat (width : Nat) (n : Nat) : String :=
  let s := Nat.repr n
  padZeros (width - s.length) s

/-- Rust {:0w} formatting of a signed integer: sign-aware zero fill, the minus
sign counts toward the width and precedes the fill zeros. -/
def rustPadInt (width : Nat) (n : Int) : String :=
  if n < 0 then "-" ++ rustPadNat (width - 1) n.natAbs else rustPadNat width n.natAbs

/-- Embedding of the Display impl for DateTime: the format string
`[:04]-[:02]-[:02] [:02]:[:02]:[:02].[:03]` (with Rust zero-fill specifiers)
applied to year, month as u8, day, hour, minute, second, millisecond. -/
def DateTime.format (d : DateTime) : String :=
  rustPadInt 4 d.odt.year ++ "-" ++ rustPadNat 2 d.odt.month.toU8 ++ "-" ++
    rustPadNat 2 d.odt.day ++ " " ++ rustPadNat 2 d.odt.hour ++ ":" ++
    rustPadNat 2 d.odt.minute ++ ":" ++ rustPadNat 2 d.odt.second ++ "." ++
    rustPadNat 3 d.odt.millisecond

/-- Error from std::env::var: the variable is absent, or its value is not
valid Unicode. -/
inductive EnvVarError where
  | notPresent
  | notUnicode
deriving DecidableEq, Repr

/-- Embedding of the macro's path resolution (lib.rs lines 64-69): if the
TMP_LOG_FILE lookup succeeded, use the value unless it is empty; on an empty
value or any lookup error use the default /tmp/t.log. -/
def resolveLogFile (envVar : Except EnvVarError String) : String :=
  let defaultLogFile := "/tmp/t.log"
  match envVar with
  | .ok x => if x.isEmpty then defaultLogFile else x
  | .error _ => defaultLogFile

/-- Rust str::ends_with(char): true iff the last character of the string is
that character. -/
def endsWithChar (s : String) (c : Char) : Bool :=
  match s.data.reverse.head? with
  | some d => d = c
  | none => false

/-- Embedding of the macro's line construction (lib.rs lines 79-82): format
the message as `[now][pid] msg`, then append one newline unless the string
already ends with one. -/
def formatLine (ts : String) (pid : Int) (msg : String) : String :=
  let m := "[" ++ ts ++ "][" ++ toString pid ++ "] " ++ msg
  if endsWithChar m '\n' then m else m ++ "\n"

/-- World state an invocation of the macro runs in: the outcome of the
TMP_LOG_FILE lookup, the file-system contents (path to content, none for a
missing file), injected outcomes for the open and write system calls with the
Display text of their errors, the two clock readings, and the process id. -/
structure World where
  env : Except EnvVarError String
  fs : String → Option String
  openFails : String → Bool
  openErrMsg : String
  writeFails : Bool
  writeErrMsg : String
  localClock : Except TzError OffsetDateTime
  utcClock : OffsetDateTime
  pid : Int

/-- Result of one expansion of the macro: the file system afterwards, the
lines printed to standard output, and whether the expansion executed a
Rust `return` statement (which exits the caller's enclosing function). -/
structure TlogResult where
  fs : String → Option String
  stdout : List String
  returned : Bool

/-- Embedding of the single-argument arm of the tlog! macro (lib.rs lines
60-90): resolve the path, open in append mode creating if absent (on failure
print a diagnostic naming the path and the error, then execute return), build
the line from the current DateTime, the pid and the message, write it (on
failure print a diagnostic, then execute return). -/
def tlogRun (w : World) (msg : String) : TlogResult :=
  let logFile := resolveLogFile w.env
  if w.openFails logFile then
    { fs := w.fs
      stdout := ["_tlog: open error: " ++ logFile ++ ": " ++ w.openErrMsg]
      returned := true }
  else
    let opened := (w.fs logFile).getD ""
    let now := DateTime.now w.localClock w.utcClock
    let line := formatLine now.format w.pid msg
    if w.writeFails then
      { fs := fun p => if p = logFile then some opened else w.fs p
        stdout := ["_tlog: write_all failed: " ++ w.writeErrMsg]
        returned := true }
    else
      { fs := fun p => if p = logFile then some (opened ++ line) else w.fs p
        stdout := []
        returned := false }

/-- Piece of a format template after brace-escape processing: a literal run
of text, or one positional placeholder. -/
inductive FmtPart where
  | lit : String → FmtPart
  | hole : FmtPart
deriving DecidableEq, Repr

/-- Positional rendering of a format template: literals are copied, each
placeholder consumes the next argument verbatim; characters of a substituted
argument are never re-scanned for placeholders. -/
def render : List FmtPart → List String → String
  | [], _ => ""
  | .lit s :: rest, args => s ++ render rest args
  | .hole :: rest, args =>
    match args with
    | [] => render rest []
    | a :: moreArgs => a ++ render rest moreArgs

/-- Embedding of the multi-argument arm of the tlog! macro (lib.rs lines
92-95), with its recursive call to the single-argument arm expanded in place:
the arm formats the template with the arguments and then performs exactly the
steps of the single-argument arm on the resulting string. -/
def tlogMulti (w : World) (fmt : List FmtPart) (args : List String) : TlogResult :=
  let msg := render fmt args
  let logFile := resolveLogFile w.env
  if w.openFails logFile then
    { fs := w.fs
      stdout := ["_tlog: open error: " ++ logFile ++ ": " ++ w.openErrMsg]
      returned := true }
  else
    let opened := (w.fs logFile).getD ""
    let now := DateTime.now w.localClock w.utcClock
    let line := formatLine now.format w.pid msg
    if w.writeFails then
      { fs := fun p => if p = logFile then some opened else w.fs p
        stdout := ["_tlog: write_all failed: " ++ w.writeErrMsg]
        returned := true }
    else
      { fs := fun p => if p = logFile then some (opened ++ line) else w.fs p
        stdout := []
        returned := false }

/-- Count of newline characters at the head of a character list. -/
def countLeadingNewlines : List Char → Nat
  | [] => 0
  | c :: cs => if c = '\n' then countLeadingNewlines cs + 1 else 0

/-- Number of consecutive newline characters at the end of a string. -/
def trailingNewlines (s : String) : Nat :=
  countLeadingNewlines s.data.reverse

/-- Timestamp-and-pid block that the macro places in front of the message. -/
def lineHeader (ts : String) (pid : Int) : String :=
  "[" ++ ts ++ "][" ++ toString pid ++ "] "

/-- Month number modelled from the spec words: month is 1-indexed with
January = 1. -/
def monthNumber : Month → Nat
  | .january => 1
  | .february => 2
  | .march => 3
  | .april => 4
  | .may => 5
  | .june => 6
  | .july => 7
  | .august => 8
  | .september => 9
  | .october => 10
  | .november => 11
  | .december => 12

/-- C-style zero padding of an unsigned decimal to a minimum field width,
modelled from the spec words for the fields of percent-04d style patterns. -/
def specPadNat (width : Nat) (n : Nat) : String :=
  String.mk (List.replicate (width - (Nat.repr n).length) '0') ++ Nat.repr n

/-- C-style percent-0wd padding of a signed decimal: the sign counts toward
the width and precedes the fill zeros. -/
def specPadInt (width : Nat) (n : Int) : String :=
  if n < 0 then "-" ++ specPadNat (width - 1) n.natAbs else specPadNat width n.natAbs

/-- Timestamp pattern modelled from the spec words: percent-04d year, dash,
percent-02d month, dash, percent-02d day, space, percent-02d hour, colon,
percent-02d minute, colon, percent-02d second, dot, percent-03d millisecond. -/
def timestampPattern (o : OffsetDateTime) : String :=
  specPadInt 4 o.year ++ "-" ++ specPadNat 2 (monthNumber o.month) ++ "-" ++
    specPadNat 2 o.day ++ " " ++ specPadNat 2 o.hour ++ ":" ++
    specPadNat 2 o.minute ++ ":" ++ specPadNat 2 o.second ++ "." ++
    specPadNat 3 o.millisecond

/-- Concrete clock reading used by the concrete worlds below. -/
def odt0 : OffsetDateTime :=
  { year := 2022, month := Month.september, day := 5, hour := 11, minute := 10,
    second := 31, millisecond := 763 }

/-- Base world: TMP_LOG_FILE unset, empty file system, every open and write
succeeds, local timezone indeterminate, pid 42. -/
def w0 : World where
  env := Except.error EnvVarError.notPresent
  fs := fun _ => none
  openFails := fun _ => false
  openErrMsg := ""
  writeFails := false
  writeErrMsg := ""
  localClock := Except.error TzError.indeterminate
  utcClock := odt0
  pid := 42

/-- World in which TMP_LOG_FILE points at a path that cannot be opened. -/
def wOpenFail : World :=
  { w0 with env := Except.ok "/bad/x.log"
            openFails := fun p => p = "/bad/x.log"
            openErrMsg := "Permission denied (os error 13)" }

/-- World in which the file opens but the write fails. -/
def wWriteFail : World :=
  { w0 with writeFails := true, writeErrMsg := "No space left on device (os error 28)" }

/-- Second world of the sequential-call scenario: the base world after one
successful call logging the message alpha. -/
def w2c : World := { w0 with fs := (tlogRun w0 "alpha").fs }

end Tlog

namespace Tlog

/-- Counting leading newlines of a concatenation ignores the second list when
that list does not start with a newline. -/
lemma countLeadingNewlines_append (ys zs : List Char) (h : zs.head? ≠ some '\n') :
    countLeadingNewlines (ys ++ zs) = countLeadingNewlines ys := by
  induction ys with
  | nil =>
    cases zs with
    | nil => rfl
    | cons c cs =>
      simp only [List.nil_append, countLeadingNewlines]
      have hc : c ≠ '\n' := by
        intro hc; exact h (by simp [hc])
      simp [hc]
  | cons c cs ih =>
    by_cases hc : c = '\n' <;> simp [countLeadingNewlines, hc, ih]

/-- Lists that do not start with a newline have no leading newlines. -/
lemma countLeadingNewlines_zero_of_head_ne (l : List Char)
    (h : l.head? ≠ some '\n') : countLeadingNewlines l = 0 := by
  cases l with
  | nil => rfl
  | cons c cs =>
    have hc : c ≠ '\n' := by intro hc; exact h (by simp [hc])
    simp [countLeadingNewlines, hc]

/-- Last character of the line header is the space after the pid block. -/
lemma lineHeader_rev_head (ts : String) (pid : Int) :
    (lineHeader ts pid).data.reverse.head? = some ' ' := by
  simp [lineHeader, String.data_append]

/-- Boolean ends-with test unfolded to the last character. -/
lemma endsWithChar_iff (s : String) (c : Char) :
    endsWithChar s c = true ↔ s.data.reverse.head? = some c := by
  unfold endsWithChar
  cases h : s.data.reverse.head? with
  | none => simp
  | some d => simp

/-- Reassociation of the macro's format expression into header and message. -/
lemma m_eq_header (ts : String) (pid : Int) (msg : String) :
    "[" ++ ts ++ "][" ++ toString pid ++ "] " ++ msg = lineHeader ts pid ++ msg := by
  simp [lineHeader, String.append_assoc]

/-- Prefixing the header does not change whether the text ends in a newline,
because the header ends in a space. -/
lemma endsWithChar_header_append (ts : String) (pid : Int) (msg : String) :
    endsWithChar (lineHeader ts pid ++ msg) '\n' = endsWithChar msg '\n' := by
  unfold endsWithChar
  rw [String.data_append, List.reverse_append]
  cases hm : msg.data.reverse with
  | nil =>
    simp only [List.nil_append]
    rw [lineHeader_rev_head]
    simp
  | cons c r => simp

/-- Closed form of the macro's line construction: the header followed by the
message, with one newline appended exactly when the message lacks one. -/
lemma formatLine_eq (ts : String) (pid : Int) (msg : String) :
    formatLine ts pid msg =
      lineHeader ts pid ++ (if endsWithChar msg '\n' then msg else msg ++ "\n") := by
  unfold formatLine
  rw [m_eq_header]
  show (if endsWithChar (lineHeader ts pid ++ msg) '\n' = true then
      lineHeader ts pid ++ msg else (lineHeader ts pid ++ msg) ++ "\n") = _
  rw [endsWithChar_header_append]
  cases h : endsWithChar msg '\n' <;> simp [String.append_assoc]

/-- Trailing-newline count ignores the header. -/
lemma trailingNewlines_header_append (ts : String) (pid : Int) (s : String) :
    trailingNewlines (lineHeader ts pid ++ s) = trailingNewlines s := by
  unfold trailingNewlines
  rw [String.data_append, List.reverse_append]
  apply countLeadingNewlines_append
  rw [lineHeader_rev_head]
  simp

/-- Zero-fill loop produces exactly a block of zero characters. -/
lemma padZeros_data (k : Nat) (s : String) :
    (padZeros k s).data = List.replicate k '0' ++ s.data := by
  induction k generalizing s with
  | zero => simp [padZeros]
  | succ k ih =>
    have h0 : ("0" ++ s).data = '0' :: s.data := by
      rw [String.data_append]; rfl
    simp [padZeros, ih, h0, List.replicate_succ', List.append_assoc]

/-- Rust zero-fill of an unsigned decimal agrees with C-style padding. -/
lemma rustPadNat_eq_specPadNat (width n : Nat) : rustPadNat width n = specPadNat width n := by
  apply String.ext
  simp [rustPadNat, specPadNat, padZeros_data, String.data_append]

/-- Rust zero-fill of a signed decimal agrees with C-style padding. -/
lemma rustPadInt_eq_specPadInt (width : Nat) (n : Int) :
    rustPadInt width n = specPadInt width n := by
  unfold rustPadInt specPadInt
  split <;> rw [rustPadNat_eq_specPadNat]

/-- The Rust cast of the month enumeration agrees with the 1-indexed month
number of the spec. -/
lemma toU8_eq_monthNumber (m : Month) : Month.toU8 m = monthNumber m := by
  cases m <;> rfl

/-- C3: the target file path is resolved from the TMP_LOG_FILE lookup: a
present non-empty value is used as the path; an unset variable or an empty
value resolves to the default /tmp/t.log. -/
theorem resolveLogFile_spec :
    (∀ s : String, resolveLogFile (Except.ok s) = if s = "" then "/tmp/t.log" else s) ∧
    resolveLogFile (Except.error EnvVarError.notPresent) = "/tmp/t.log" := by
  constructor
  · intro s
    simp only [resolveLogFile, String.isEmpty_iff]
  · rfl

/-- C7: now never fails: with a successful local reading it returns the local
wall-clock time, and when the local timezone is indeterminate it falls back to
the UTC wall-clock time; in both cases a DateTime value is produced. -/
theorem now_total_with_utc_fallback :
    (∀ (o utc : OffsetDateTime), DateTime.now (Except.ok o) utc = { odt := o }) ∧
    (∀ (e : TzError) (utc : OffsetDateTime),
      DateTime.now (Except.error e) utc = { odt := utc }) :=
  ⟨fun _ _ => rfl, fun _ _ => rfl⟩

/-- C8: a non-empty value of TMP_LOG_FILE, in particular a whitespace-only
one, is used literally as the log file path, with no fallback to the
default. -/
theorem resolveLogFile_nonempty_literal (s : String) (h : s ≠ "") :
    resolveLogFile (Except.ok s) = s := by
  simp only [resolveLogFile, String.isEmpty_iff, if_neg h]

/-- C8 witness: the whitespace-only value consisting of one space resolves to
itself, not to the default path. -/
theorem resolveLogFile_nonempty_literal_witness :
    resolveLogFile (Except.ok " ") = " " :=
  resolveLogFile_nonempty_literal " " (by decide)

/-- C10: every lookup error of TMP_LOG_FILE, including a value that is not
valid Unicode, resolves to the default path /tmp/t.log, indistinguishably
from the variable being unset. -/
theorem resolveLogFile_error_default :
    (∀ e : EnvVarError, resolveLogFile (Except.error e) = "/tmp/t.log") ∧
    resolveLogFile (Except.error EnvVarError.notUnicode) =
      resolveLogFile (Except.error EnvVarError.notPresent) :=
  ⟨fun _ => rfl, rfl⟩

/-- C9: the multi-argument arm of the macro behaves exactly as rendering the
template with the arguments once and handing the resulting string to the
single-argument arm; a substituted argument is inserted verbatim, so any
brace characters it contains are written literally, never re-interpreted. -/
theorem tlogMulti_eq_render_then_tlogRun :
    (∀ (w : World) (fmt : List FmtPart) (args : List String),
      tlogMulti w fmt args = tlogRun w (render fmt args)) ∧
    (∀ s : String, render [FmtPart.hole] [s] = s) :=
  ⟨fun _ _ _ => rfl, fun s => by simp [render, String.append_empty]⟩

/-- C1: evaluation of both failure paths: on an open failure the macro prints
one diagnostic naming the attempted path and the error and sets the returned
flag, meaning its expansion executed a Rust return statement that exits the
caller's enclosing function; on a write failure it likewise prints one
diagnostic and executes return. Control flow does not continue normally after
the invocation, contradicting the fire-and-forget contract. -/
theorem tlog_failure_paths_execute_return :
    (tlogRun wOpenFail "hello").returned = true ∧
    (tlogRun wOpenFail "hello").stdout =
      ["_tlog: open error: /bad/x.log: Permission denied (os error 13)"] ∧
    (tlogRun wOpenFail "hello").fs "/bad/x.log" = none ∧
    (tlogRun wWriteFail "hello").returned = true ∧
    (tlogRun wWriteFail "hello").stdout =
      ["_tlog: write_all failed: No space left on device (os error 28)"] ∧
    (tlogRun w0 "hello").returned = false := by
  refine ⟨rfl, by decide, rfl, rfl, by decide, rfl⟩

/-- C5: the line construction appends exactly one newline when the message
does not already end with one, and leaves a message that does end with a
newline unchanged after the header. -/
theorem formatLine_newline_policy (ts : String) (pid : Int) (msg : String) :
    formatLine ts pid msg =
      lineHeader ts pid ++ (if endsWithChar msg '\n' then msg else msg ++ "\n") :=
  formatLine_eq ts pid msg

/-- C4 counterexample: for the message consisting of the letter x followed by
two newlines, the written line ends with two newline characters, not exactly
one. -/
theorem formatLine_not_exactly_one_newline :
    trailingNewlines (formatLine "t" 1 "x\n\n") ≠ 1 ∧
    trailingNewlines (formatLine "t" 1 "x\n\n") = 2 := by
  constructor <;> decide

/-- C4 amended: every written line begins with the timestamp-and-pid block,
and ends with a newline: with exactly one newline when the caller's message
has no trailing newline, and otherwise with exactly the trailing newlines the
message already has, which can be more than one. -/
theorem formatLine_header_and_trailing (ts : String) (pid : Int) (msg : String) :
    (∃ body, formatLine ts pid msg = lineHeader ts pid ++ body) ∧
    trailingNewlines (formatLine ts pid msg) = max (trailingNewlines msg) 1 := by
  refine ⟨⟨if endsWithChar msg '\n' then msg else msg ++ "\n", formatLine_eq ts pid msg⟩, ?_⟩
  rw [formatLine_eq, trailingNewlines_header_append]
  cases h : endsWithChar msg '\n' with
  | true =>
    have hh : msg.data.reverse.head? = some '\n' := (endsWithChar_iff msg '\n').mp h
    have h1 : 1 ≤ trailingNewlines msg := by
      unfold trailingNewlines
      cases hr : msg.data.reverse with
      | nil => rw [hr] at hh; simp at hh
      | cons c r =>
        rw [hr] at hh
        simp only [List.head?_cons, Option.some.injEq] at hh
        simp [countLeadingNewlines, hh]
    simp only [if_true]
    omega
  | false =>
    have hh : msg.data.reverse.head? ≠ some '\n' := by
      intro hc
      rw [(endsWithChar_iff msg '\n').mpr hc] at h
      exact absurd h (by simp)
    have h0 : trailingNewlines msg = 0 :=
      countLeadingNewlines_zero_of_head_ne _ hh
    have h1 : trailingNewlines (msg ++ "\n") = 1 := by
      unfold trailingNewlines
      rw [String.data_append, List.reverse_append]
      show countLeadingNewlines ('\n' :: msg.data.reverse) = 1
      simp [countLeadingNewlines, countLeadingNewlines_zero_of_head_ne _ hh]
    simp [h1, h0]

/-- C2 counterexample: a successful call logging the message x followed by
one newline does not leave the file holding the previous content plus the
header, the message and a further newline, as the claim's equation states;
the code appends the message unchanged, so the file ends with one newline,
not two. -/
theorem tlog_append_claim_fails_on_newline_msg :
    (tlogRun w0 "x\n").fs "/tmp/t.log" ≠
      some ((w0.fs "/tmp/t.log").getD "" ++
        ("[" ++ (DateTime.now w0.localClock w0.utcClock).format ++ "][" ++
          toString w0.pid ++ "] " ++ "x\n" ++ "\n")) ∧
    (tlogRun w0 "x\n").fs "/tmp/t.log" =
      some "[2022-09-05 11:10:31.763][42] x\n" := by
  constructor <;> decide

/-- C2 amended: a successful call appends exactly one line to the previous
content of the resolved file, treating an absent file as empty: the header
followed by the message, with one newline appended exactly when the message
does not already end with one; a second successful call appends its own
line after the first, in call order, no other path of the file system is
touched, and neither call executes a return. -/
theorem tlog_append_lines (w w2 : World) (p msg1 msg2 : String)
    (hp : resolveLogFile w.env = p)
    (ho : w.openFails p = false) (hw : w.writeFails = false)
    (h2fs : w2.fs = (tlogRun w msg1).fs)
    (h2env : w2.env = w.env)
    (ho2 : w2.openFails p = false) (hw2 : w2.writeFails = false) :
    (tlogRun w msg1).fs p =
      some ((w.fs p).getD "" ++
        (lineHeader (DateTime.now w.localClock w.utcClock).format w.pid ++
          (if endsWithChar msg1 '\n' then msg1 else msg1 ++ "\n"))) ∧
    (tlogRun w2 msg2).fs p =
      some ((w.fs p).getD "" ++
        (lineHeader (DateTime.now w.localClock w.utcClock).format w.pid ++
          (if endsWithChar msg1 '\n' then msg1 else msg1 ++ "\n")) ++
        (lineHeader (DateTime.now w2.localClock w2.utcClock).format w2.pid ++
          (if endsWithChar msg2 '\n' then msg2 else msg2 ++ "\n"))) ∧
    (∀ q, q ≠ p → (tlogRun w2 msg2).fs q = w.fs q) ∧
    (tlogRun w msg1).returned = false ∧ (tlogRun w2 msg2).returned = false := by
  have hp2 : resolveLogFile w2.env = p := by rw [h2env, hp]
  have c1 : (tlogRun w msg1).fs p =
      some ((w.fs p).getD "" ++
        formatLine (DateTime.now w.localClock w.utcClock).format w.pid msg1) := by
    simp [tlogRun, hp, ho, hw]
  refine ⟨?_, ?_, ?_, ?_, ?_⟩
  · rw [c1, formatLine_eq]
  · have c2 : (tlogRun w2 msg2).fs p =
        some ((w2.fs p).getD "" ++
          formatLine (DateTime.now w2.localClock w2.utcClock).format w2.pid msg2) := by
      simp [tlogRun, hp2, ho2, hw2]
    rw [c2, h2fs, c1, formatLine_eq, formatLine_eq]
    simp [String.append_assoc]
  · intro q hq
    have f2 : (tlogRun w2 msg2).fs q = w2.fs q := by
      simp [tlogRun, hp2, ho2, hw2, hq]
    have f1 : (tlogRun w msg1).fs q = w.fs q := by
      simp [tlogRun, hp, ho, hw, hq]
    rw [f2, h2fs, f1]
  · simp [tlogRun, hp, ho, hw]
  · simp [tlogRun, hp2, ho2, hw2]

/-- C2 witness: in the base world two sequential successful calls logging
alpha and then beta leave the default file holding exactly the two lines in
call order. -/
theorem tlog_append_lines_witness :
    (tlogRun w2c "beta").fs "/tmp/t.log" =
      some "[2022-09-05 11:10:31.763][42] alpha\n[2022-09-05 11:10:31.763][42] beta\n" := by
  rw [(tlog_append_lines w0 w2c "/tmp/t.log" "alpha" "beta" rfl rfl rfl rfl rfl rfl rfl).2.1]
  decide

/-- C6: the DateTime rendering is the zero-padded fixed-width pattern of the
spec, a 4 digit year, 2 digit month, day, hour, minute and second and a 3
digit millisecond field separated as in the pattern, with the month numbered
from 1, January being 1. -/
theorem format_eq_timestampPattern :
    (∀ d : DateTime, DateTime.format d = timestampPattern d.odt) ∧
    Month.toU8 Month.january = 1 :=
  ⟨fun d => by
    simp [DateTime.format, timestampPattern, rustPadInt_eq_specPadInt,
      rustPadNat_eq_specPadNat, toU8_eq_monthNumber], rfl⟩

end Tlog
